import Mathlib

/-!
# Verification of the Solar System Moons cleaning pipeline

A shallow embedding of the pandas pipeline in `codes.py`.  A data frame is a
list of rows; each row is an association list from column labels to cell
values.  Cells are strings, rational numbers (embedding the numeric values;
the source only ever divides by 365, which is exact), the missing value NaN,
or one of the ten year-bin intervals produced by `pd.cut` (represented by the
index of the interval).  The order in which cells are stored inside a row is
irrelevant: rows are only ever read through `Row.get` and `projRow`.
-/

namespace MoonPipeline

/-- An exact rational cell value: the fraction `num / (den1 + 1)`.  The
denominator is positive by construction and the fraction is not reduced, so
every operation is a plain integer computation; `Frac.toRat` below gives the
value it stands for.  (The source manipulates these numbers as floats; all
the arithmetic the pipeline performs — parsing decimal literals and dividing
by 365 — is exact, so exact rationals embed it faithfully.) -/
structure Frac where
  num : Int
  den1 : Nat
deriving DecidableEq, Repr

/-- The rational value a `Frac` stands for. -/
def Frac.toRat (a : Frac) : ℚ := (a.num : ℚ) / ((a.den1 : ℚ) + 1)

/-- An integer as a `Frac`. -/
def Frac.ofInt (z : Int) : Frac := ⟨z, 0⟩

/-- Strict comparison, by cross multiplication. -/
def Frac.blt (a b : Frac) : Bool :=
  decide (a.num * ((b.den1 : Int) + 1) < b.num * ((a.den1 : Int) + 1))

/-- Non-strict comparison, by cross multiplication. -/
def Frac.ble (a b : Frac) : Bool :=
  decide (a.num * ((b.den1 : Int) + 1) ≤ b.num * ((a.den1 : Int) + 1))

/-- Division by 365 (`/365` on the day counts), exact. -/
def Frac.div365 (a : Frac) : Frac := ⟨a.num, a.den1 * 365 + 364⟩

theorem Frac.den_pos (a : Frac) : (0 : ℚ) < (a.den1 : ℚ) + 1 := by positivity

theorem Frac.blt_iff {a b : Frac} : a.blt b = true ↔ a.toRat < b.toRat := by
  unfold Frac.blt Frac.toRat
  rw [decide_eq_true_eq, div_lt_div_iff₀ a.den_pos b.den_pos]
  constructor <;> intro h <;> exact_mod_cast h

theorem Frac.ble_iff {a b : Frac} : a.ble b = true ↔ a.toRat ≤ b.toRat := by
  unfold Frac.ble Frac.toRat
  rw [decide_eq_true_eq, div_le_div_iff₀ a.den_pos b.den_pos]
  constructor <;> intro h <;> exact_mod_cast h

theorem Frac.div365_toRat (a : Frac) : a.div365.toRat = a.toRat / 365 := by
  unfold Frac.div365 Frac.toRat
  push_cast
  rw [div_div]
  ring_nf

theorem Frac.ofInt_toRat (z : Int) : (Frac.ofInt z).toRat = (z : ℚ) := by
  unfold Frac.ofInt Frac.toRat
  norm_num

/-- A cell value of the data frame.  `vbin i` is the interval
`(1590 + 43*i, 1590 + 43*(i+1)]` produced by `pd.cut`. -/
inductive Val where
  | vstr : String → Val
  | vnum : Frac → Val
  | vnan : Val
  | vbin : Nat → Val
deriving DecidableEq, Repr

open Val

/-- A row: an association list from column labels to cell values. -/
abbrev Row := List (String × Val)

/-- Reading a cell: the first entry with the given label, NaN when absent. -/
def Row.get : Row → String → Val
  | [], _ => Val.vnan
  | p :: rs, c => if p.1 = c then p.2 else Row.get rs c

/-- Removing a column from a row (`del df[c]`). -/
def eraseKey : Row → String → Row
  | [], _ => []
  | p :: rs, c => if p.1 = c then eraseKey rs c else p :: eraseKey rs c

/-- Writing a cell (`df[c] = ...` at row level). -/
def Row.set (r : Row) (c : String) (v : Val) : Row :=
  (c, v) :: eraseKey r c

/-- Projecting a row onto a list of labels (`df.reindex(columns=...)` at row
level): missing labels become NaN via `Row.get`. -/
def projRow (keep : List String) (r : Row) : Row :=
  keep.map (fun c => (c, r.get c))

@[simp] theorem get_set_self (r : Row) (c : String) (v : Val) :
    (r.set c v).get c = v := by
  simp [Row.set, Row.get]

theorem get_erase_ne (r : Row) (c c' : String) (h : c' ≠ c) :
    (eraseKey r c).get c' = r.get c' := by
  induction r with
  | nil => rfl
  | cons p rs ih =>
    have hcc : ¬ (c = c') := fun e => h e.symm
    by_cases hp : p.1 = c
    · have hc : ¬ (p.1 = c') := by rw [hp]; exact hcc
      simp [eraseKey, Row.get, hp, hc, ih, hcc]
    · by_cases hc : p.1 = c' <;> simp [eraseKey, Row.get, hp, hc, ih, h, hcc]

theorem get_set_ne (r : Row) (c c' : String) (v : Val) (h : c' ≠ c) :
    (r.set c v).get c' = r.get c' := by
  have hc : ¬ (c = c') := fun e => h e.symm
  simp [Row.set, Row.get, hc, get_erase_ne r c c' h]

theorem get_proj_mem (keep : List String) (r : Row) (c : String) (h : c ∈ keep) :
    (projRow keep r).get c = r.get c := by
  induction keep with
  | nil => cases h
  | cons k ks ih =>
    by_cases hk : k = c
    · simp [projRow, Row.get, hk]
    · have hks : c ∈ ks := by
        cases h with
        | head => exact absurd rfl hk
        | tail _ h => exact h
      have hi := ih hks
      simp only [projRow] at hi
      simp [projRow, Row.get, hk, hi]

/-!
## Numeric parsing

`pd.to_numeric` / `astype(float)` on the strings this pipeline feeds them:
an optional integer part, an optional dot, an optional fractional part,
with at least one digit overall.  Values are exact rationals.
-/

/-- Digits of a decimal numeral to a natural number; `none` on a non-digit. -/
def digitsToNat (cs : List Char) : Option Nat :=
  cs.foldl
    (fun acc c =>
      acc.bind (fun n => if c.isDigit then some (10 * n + (c.toNat - 48)) else none))
    (some 0)

/-- Parse a decimal numeral (`1979`, `6745`, `123.45`, ...) as an exact
rational: the digits around the first dot; any further character (a second
dot included) fails, as `float(...)` would. -/
def parseDecimal (s : String) : Option Frac :=
  let cs := s.toList
  let ip := cs.takeWhile (fun c => c ≠ '.')
  match cs.dropWhile (fun c => c ≠ '.') with
  | [] =>
    if ip.length = 0 then none
    else (digitsToNat ip).map (fun n => Frac.ofInt n)
  | _ :: fp =>
    if ip.length = 0 ∧ fp.length = 0 then none
    else
      match digitsToNat ip, digitsToNat fp with
      | some n, some m =>
        some ⟨(n * 10 ^ fp.length + m : Int), 10 ^ fp.length - 1⟩
      | _, _ => none

/-!
## The period-extraction regular expression

`str.extract('(\d+\,?\d+\.?\d+)')` uses Python `re` semantics: the leftmost
match wins and each `+`/`?` is greedy with backtracking.  The pattern is
`\d+ ,? \d+ .? \d+`.  The functions below reproduce that search exactly:
`tryAlen` backtracks over the length of the first digit run, `tryBlen` over
the second, commas and dots are preferred present, and the final digit run is
maximal.
-/

/-- Length of the leading digit run. -/
def digitRun (cs : List Char) : Nat :=
  (cs.takeWhile Char.isDigit).length

/-- Match the final `\d+` of the pattern (greedy, nothing follows it). -/
def finalDigits (cs : List Char) : Option (List Char) :=
  if digitRun cs = 0 then none else some (cs.take (digitRun cs))

/-- Match `\.? \d+`: a present dot is preferred, then backtrack to no dot. -/
def tryDot (cs : List Char) : Option (List Char) :=
  match cs with
  | '.' :: rest =>
    match (if digitRun rest = 0 then none
           else some ('.' :: rest.take (digitRun rest))) with
    | some m => some m
    | none => finalDigits cs
  | _ => finalDigits cs

/-- Match `\d+ \.? \d+` with the first run of length at most `b`, backtracking
from the longest candidate downwards. -/
def tryBlen : Nat → List Char → Option (List Char)
  | 0, _ => none
  | b + 1, cs =>
    match tryDot (cs.drop (b + 1)) with
    | some t => some (cs.take (b + 1) ++ t)
    | none => tryBlen b cs

/-- Match `\d+ \.? \d+` at the head of `cs` (the tail of the pattern after
the optional comma). -/
def matchTail (cs : List Char) : Option (List Char) :=
  tryBlen (digitRun cs) cs

/-- Match `,? \d+ \.? \d+`: a present comma is preferred, then no comma. -/
def tryComma (cs : List Char) : Option (List Char) :=
  match cs with
  | ',' :: rest =>
    match matchTail rest with
    | some t => some (',' :: t)
    | none => matchTail cs
  | _ => matchTail cs

/-- Match the whole pattern `\d+ ,? \d+ \.? \d+` at the head of `cs`, the
first digit run of length at most `a`, backtracking downwards. -/
def tryAlen : Nat → List Char → Option (List Char)
  | 0, _ => none
  | a + 1, cs =>
    match tryComma (cs.drop (a + 1)) with
    | some t => some (cs.take (a + 1) ++ t)
    | none => tryAlen a cs

/-- Match the pattern at the head of `cs`. -/
def matchFrom (cs : List Char) : Option (List Char) :=
  tryAlen (digitRun cs) cs

/-- `re.search`: the match at the leftmost position where one exists
(the capture group is the whole match). -/
def extractFirst : List Char → Option (List Char)
  | [] => none
  | c :: cs =>
    match matchFrom (c :: cs) with
    | some m => some m
    | none => extractFirst cs

/-- `str.replace(",","")` on the extracted token. -/
def stripCommas (s : String) : String :=
  String.mk (s.toList.filter (fun c => c ≠ ','))

/-!
## The year bins

`np.linspace(start=1590, stop=2020, num=11)` is exactly
`[1590, 1633, 1676, ..., 2020]` (step `43`), and `pd.cut(·, bins)` assigns a
value `q` the left-open interval `(1590 + 43*i, 1590 + 43*(i+1)]` that
contains it, or NaN when none does. -/
def cutBin (q : Frac) : Option Nat :=
  (List.range 10).find?
    (fun i => (Frac.ofInt (1590 + 43 * i)).blt q &&
              q.ble (Frac.ofInt (1590 + 43 * (i + 1))))

/-!
## Data frames and the pipeline steps
-/

/-- A data frame: the data column labels in order, the labels of the index
levels, and the rows.  A frame fresh from `read_html` has a positional
(unnamed) index, i.e. `index = []`. -/
structure Frame where
  cols : List String
  index : List String
  rows : List Row
deriving DecidableEq, Repr

/-- The column renaming of cleaning step 1 (`df.rename(columns=...)`). -/
def renameMap (c : String) : String :=
  if c = "Parent" then "Parent Planet"
  else if c = "Name" then "Moon name"
  else if c = "Numeral" then "Numeric moon name"
  else if c = "Semi-major axis (km)" then "Mean distance(km)"
  else if c = "Sidereal period (d) (r = retrograde)" then "Orbital period(days)"
  else c

/-- Renaming at row level. -/
def renameRow (r : Row) : Row :=
  r.map (fun p => (renameMap p.1, p.2))

/-- `df.rename(columns=..., inplace=True)`. -/
def renameFrame (f : Frame) : Frame :=
  { cols := f.cols.map renameMap, index := f.index, rows := f.rows.map renameRow }

/-- `del df[c]`: a `KeyError` (here: `none`) when the column is absent. -/
def delCol (f : Frame) (c : String) : Option Frame :=
  if c ∈ f.cols then
    some { cols := f.cols.filter (fun c' => c' ≠ c), index := f.index,
           rows := f.rows.map (fun r => eraseKey r c) }
  else none

/-- `df.reindex(columns=newCols)`: exactly those data columns, in that order;
missing ones are created filled with NaN; index levels are kept. -/
def reindexCols (f : Frame) (newCols : List String) : Frame :=
  { cols := newCols, index := f.index,
    rows := f.rows.map (projRow (f.index ++ newCols)) }

/-- The canonical column order of cleaning step 3. -/
def column_names : List String :=
  ["Numeric moon name", "Moon name", "Discovery year", "Discovered by",
   "Mean radius (km)", "Notes", "Parent Planet", "Mean distance(km)",
   "Orbital period(days)"]

/-- The two index levels of cleaning step 4. -/
def keyCols : List String := ["Numeric moon name", "Moon name"]

/-- Lexicographic strict comparison of strings, on code points. -/
def charListLt : List Char → List Char → Bool
  | [], [] => false
  | [], _ :: _ => true
  | _ :: _, [] => false
  | a :: as, b :: bs =>
    if a.toNat < b.toNat then true
    else if b.toNat < a.toNat then false
    else charListLt as bs

/-- A total comparison used by the row sorts. -/
def valLe : Val → Val → Bool
  | Val.vstr a, Val.vstr b => !(charListLt b.toList a.toList)
  | Val.vnum a, Val.vnum b => a.ble b
  | _, _ => true

/-- Comparison of rows by the `(Numeric moon name, Moon name)` index,
lexicographically. -/
def indexLe (r1 r2 : Row) : Bool :=
  if r1.get "Numeric moon name" = r2.get "Numeric moon name" then
    valLe (r1.get "Moon name") (r2.get "Moon name")
  else valLe (r1.get "Numeric moon name") (r2.get "Numeric moon name")

/-- Insertion of an element into a sorted list. -/
def insertBy (le : Row → Row → Bool) (x : Row) : List Row → List Row
  | [] => [x]
  | y :: ys => if le x y then x :: y :: ys else y :: insertBy le x ys

/-- A deterministic comparison sort of the rows (the exact order among tied
rows is not observable by any property below). -/
def sortBy (le : Row → Row → Bool) : List Row → List Row
  | [] => []
  | x :: xs => insertBy le x (sortBy le xs)

/-- `df.set_index(keys=['Numeric moon name','Moon name']).sort_index(level=[0,1])`. -/
def setIndexSort (f : Frame) : Frame :=
  { cols := f.cols.filter (fun c => c ∉ keyCols), index := keyCols,
    rows := sortBy indexLe f.rows }

/-- The year filter of cleaning step 5: the row is kept unless its
`Discovery year` cell is one of the two literal strings. -/
def yearOk (r : Row) : Bool :=
  decide (r.get "Discovery year" ≠ Val.vstr "Prehistoric" ∧
          r.get "Discovery year" ≠ Val.vstr "1975/2000")

/-- `df = df[(df['Discovery year'] != 'Prehistoric') & (df['Discovery year'] != '1975/2000')]`. -/
def filterYears (f : Frame) : Frame :=
  { f with rows := f.rows.filter yearOk }

/-- `pd.to_numeric` on one cell: a string must parse, NaN stays NaN, a number
stays itself; anything else raises (here: `none`). -/
def toNumericCell : Val → Option Val
  | Val.vstr s => (parseDecimal s).map Val.vnum
  | Val.vnum q => some (Val.vnum q)
  | Val.vnan => some Val.vnan
  | Val.vbin _ => none

/-- `pd.to_numeric(df['Discovery year'])` at row level. -/
def preRow (r : Row) : Option Row :=
  (toNumericCell (r.get "Discovery year")).map
    (fun v => r.set "Discovery year" v)

/-- Row-wise application of a fallible transformation: any failure aborts
the whole pipeline, like an uncaught pandas exception. -/
def mapRowsM (g : Row → Option Row) : List Row → Option (List Row)
  | [] => some []
  | r :: rs =>
    match g r, mapRowsM g rs with
    | some r', some rs' => some (r' :: rs')
    | _, _ => none

/-- `df['Discovery year'] = pd.to_numeric(df['Discovery year'])`. -/
def toNumericYear (f : Frame) : Option Frame :=
  (mapRowsM preRow f.rows).map (fun rs => { f with rows := rs })

/-- Comparison of rows by `Discovery year` descending, NaN last
(`df.sort_values(by="Discovery year", ascending=False)`). -/
def yearDescLe (r1 r2 : Row) : Bool :=
  match r1.get "Discovery year", r2.get "Discovery year" with
  | Val.vnum a, Val.vnum b => b.ble a
  | Val.vnum _, _ => true
  | _, Val.vnum _ => false
  | _, _ => true

/-- `df.sort_values(by="Discovery year", ascending=False, inplace=True)`. -/
def sortYearDesc (f : Frame) : Frame :=
  { f with rows := sortBy yearDescLe f.rows }

/-- Appending a column label on assignment `df[c] = ...`. -/
def addColName (cols : List String) (c : String) : List String :=
  if c ∈ cols then cols else cols ++ [c]

/-- `pd.cut` on one cell. -/
def binCell : Val → Val
  | Val.vnum q =>
    match cutBin q with
    | some i => Val.vbin i
    | none => Val.vnan
  | _ => Val.vnan

/-- `df['Year bin'] = pd.cut(df['Discovery year'], bins)` at row level. -/
def binRow (r : Row) : Row :=
  r.set "Year bin" (binCell (r.get "Discovery year"))

/-- `df['Year bin'] = pd.cut(df['Discovery year'], bins)`. -/
def addYearBin (f : Frame) : Frame :=
  { cols := addColName f.cols "Year bin", index := f.index,
    rows := f.rows.map binRow }

/-- The numeric value of the `Mean distance(km)` cell, when there is one. -/
def distOf (r : Row) : Option Frac :=
  match r.get "Mean distance(km)" with
  | Val.vnum q => some q
  | _ => none

/-- The number of non-null values strictly smaller than `v` (with
multiplicity). -/
def smallerCount (vals : List (Option Frac)) (v : Frac) : Nat :=
  vals.countP (fun w =>
    match w with
    | some w => w.blt v
    | none => false)

/-- `rank(method='min', ascending=True)` of one value against the column:
tied values share the lowest eligible rank `1 + #{strictly smaller}`;
NaN keeps a NaN rank. -/
def rankCell (vals : List (Option Frac)) : Option Frac → Val
  | some v => Val.vnum (Frac.ofInt (1 + smallerCount vals v : ℕ))
  | none => Val.vnan

/-- Rank assignment at row level. -/
def rankRow (vals : List (Option Frac)) (r : Row) : Row :=
  r.set "Mean distance rank" (rankCell vals (distOf r))

/-- `df["Mean distance rank"] = df['Mean distance(km)'].rank(axis=0, method='min', ascending=True)`. -/
def rankFrame (f : Frame) : Frame :=
  { cols := addColName f.cols "Mean distance rank", index := f.index,
    rows := f.rows.map (rankRow (f.rows.map distOf)) }

/-- `.str.extract('(\d+\,?\d+\.?\d+)')` on one cell: a non-match becomes NaN,
NaN stays NaN; the accessor raises on a non-string cell (here: `none`). -/
def extractCell : Val → Option Val
  | Val.vstr s =>
    some (match extractFirst s.toList with
          | some cs => Val.vstr (String.mk cs)
          | none => Val.vnan)
  | Val.vnan => some Val.vnan
  | _ => none

/-- `.str.replace(",","")` on one cell. -/
def stripCell : Val → Val
  | Val.vstr s => Val.vstr (stripCommas s)
  | v => v

/-- `.astype(float)` on one cell: an unparsable string raises (here: `none`). -/
def astypeCell : Val → Option Val
  | Val.vstr s => (parseDecimal s).map Val.vnum
  | Val.vnum q => some (Val.vnum q)
  | Val.vnan => some Val.vnan
  | Val.vbin _ => none

/-- Extraction, comma stripping and float conversion of the
`Orbital period(days)` cell, composed (code cells 459-461). -/
def daysCellParse (v : Val) : Option Val :=
  (extractCell v).bind (fun v1 => astypeCell (stripCell v1))

/-- Cells 459-461 at row level. -/
def periodRowFn (r : Row) : Option Row :=
  (daysCellParse (r.get "Orbital period(days)")).map
    (fun v => r.set "Orbital period(days)" v)

/-- Cells 459-461 at frame level. -/
def periodSteps (f : Frame) : Option Frame :=
  (mapRowsM periodRowFn f.rows).map (fun rs => { f with rows := rs })

/-- `df["Orbital period(days)"] / 365` on one cell. -/
def divCell : Val → Val
  | Val.vnum d => Val.vnum d.div365
  | _ => Val.vnan

/-- `df["Orbital period(yrs)"] = df["Orbital period(days)"]/365` at row level. -/
def yrsRow (r : Row) : Row :=
  r.set "Orbital period(yrs)" (divCell (r.get "Orbital period(days)"))

/-- `df["Orbital period(yrs)"] = df["Orbital period(days)"]/365`. -/
def addYrsCol (f : Frame) : Frame :=
  { cols := addColName f.cols "Orbital period(yrs)", index := f.index,
    rows := f.rows.map yrsRow }

/-- The canonical output column order of the final projection. -/
def column_names2 : List String :=
  ["Discovery year", "Year bin", "Discovered by", "Mean radius (km)", "Notes",
   "Parent Planet", "Mean distance rank", "Orbital period(yrs)"]

/-- The whole cleaning pipeline of `codes.py`, cells 448-463: rename, drop
`Image` and `Ref(s)`, reorder, set and sort the two-level index, drop the two
malformed-year rows, convert years to numbers, sort by year descending, bin
the years, rank the distances and drop the raw distance, extract and convert
the orbital period, divide by 365, and project onto the final columns. -/
def pipeline (f : Frame) : Option Frame :=
  (delCol (renameFrame f) "Image").bind fun f2 =>
  (delCol f2 "Ref(s)").bind fun f3 =>
  (toNumericYear (filterYears (setIndexSort (reindexCols f3 column_names)))).bind fun f7 =>
  (delCol (rankFrame (addYearBin (sortYearDesc f7))) "Mean distance(km)").bind fun f10 =>
  (periodSteps f10).bind fun f11 =>
  (delCol (addYrsCol f11) "Orbital period(days)").map fun f12 =>
  reindexCols f12 column_names2

/-- The effect of the pure cleaning steps 1-3 on one row: renaming followed
by the column drops and the projection onto `column_names` (for a frame with
a positional index). -/
def stage0Row (r : Row) : Row :=
  projRow column_names (eraseKey (eraseKey (renameRow r) "Image") "Ref(s)")

/-- The labels kept by the final projection: the two index levels and the
output columns. -/
def outKeep : List String := keyCols ++ column_names2

/-- The effect on one surviving row of everything after the year filter,
given the list `vals` of distance values of the surviving rows:
year conversion, binning, ranking, distance drop, period extraction and
parsing, division by 365, period drop, final projection. -/
def fullRow (vals : List (Option Frac)) (r : Row) : Option Row :=
  (preRow r).bind fun a =>
    (periodRowFn (eraseKey (rankRow vals (binRow a)) "Mean distance(km)")).map
      fun b => projRow outKeep (eraseKey (yrsRow b) "Orbital period(days)")

/-!
## List toolkit
-/

theorem insertBy_perm (le : Row → Row → Bool) (x : Row) (l : List Row) :
    (insertBy le x l).Perm (x :: l) := by
  induction l with
  | nil => exact List.Perm.refl _
  | cons y ys ih =>
    by_cases hle : le x y
    · simp [insertBy, hle]
    · simp only [insertBy, hle, if_neg, Bool.false_eq_true, not_false_eq_true]
      exact (ih.cons y).trans (List.Perm.swap x y ys)

theorem sortBy_perm (le : Row → Row → Bool) (l : List Row) :
    (sortBy le l).Perm l := by
  induction l with
  | nil => exact List.Perm.refl _
  | cons x xs ih => exact (insertBy_perm le x (sortBy le xs)).trans (ih.cons x)

theorem mapRowsM_forall₂ {g : Row → Option Row} :
    ∀ {l l' : List Row}, mapRowsM g l = some l' →
      List.Forall₂ (fun a b => g a = some b) l l'
  | [], l', h => by
    simp only [mapRowsM, Option.some.injEq] at h
    rw [← h]; exact List.Forall₂.nil
  | r :: rs, l', h => by
    simp only [mapRowsM] at h
    cases hg : g r with
    | none => rw [hg] at h; cases h
    | some r' =>
      cases hrs : mapRowsM g rs with
      | none => rw [hg, hrs] at h; cases h
      | some rs' =>
        rw [hg, hrs, Option.some.injEq] at h
        rw [← h]
        exact List.Forall₂.cons hg (mapRowsM_forall₂ hrs)

theorem forall₂_of_perm_right {α β : Type} {R : α → β → Prop} {b b' : List β}
    (hp : b.Perm b') :
    ∀ {a : List α}, List.Forall₂ R a b →
      ∃ a', a.Perm a' ∧ List.Forall₂ R a' b' := by
  induction hp with
  | nil =>
    intro a h
    cases h
    exact ⟨[], List.Perm.refl _, List.Forall₂.nil⟩
  | cons x _ ih =>
    intro a h
    cases h with
    | cons ha ht =>
      obtain ⟨t', hpt, hft⟩ := ih ht
      exact ⟨_ :: t', hpt.cons _, List.Forall₂.cons ha hft⟩
  | swap x y l =>
    intro a h
    cases h with
    | cons h1 ht =>
      cases ht with
      | cons h2 htt =>
        exact ⟨_, List.Perm.swap _ _ _, List.Forall₂.cons h2 (List.Forall₂.cons h1 htt)⟩
  | trans _ _ ih1 ih2 =>
    intro a h
    obtain ⟨a1, hp1, hf1⟩ := ih1 h
    obtain ⟨a2, hp2, hf2⟩ := ih2 hf1
    exact ⟨a2, hp1.trans hp2, hf2⟩

theorem forall₂_mem_left {α β : Type} {R : α → β → Prop} {l : List α}
    {l' : List β} (h : List.Forall₂ R l l') {a : α} (ha : a ∈ l) :
    ∃ b ∈ l', R a b := by
  induction h with
  | nil => cases ha
  | cons hr _ ih =>
    cases ha with
    | head => exact ⟨_, List.mem_cons_self _ _, hr⟩
    | tail _ ha =>
      obtain ⟨b, hb, hrb⟩ := ih ha
      exact ⟨b, List.mem_cons_of_mem _ hb, hrb⟩

theorem forall₂_mem_right {α β : Type} {R : α → β → Prop} {l : List α}
    {l' : List β} (h : List.Forall₂ R l l') {b : β} (hb : b ∈ l') :
    ∃ a ∈ l, R a b := by
  induction h with
  | nil => cases hb
  | cons hr _ ih =>
    cases hb with
    | head => exact ⟨_, List.mem_cons_self _ _, hr⟩
    | tail _ hb =>
      obtain ⟨a, ha, hra⟩ := ih hb
      exact ⟨a, List.mem_cons_of_mem _ ha, hra⟩

theorem forall₂_map_eq {α β γ : Type} {R : α → β → Prop} {l : List α}
    {l' : List β} (h : List.Forall₂ R l l') (gl : α → γ) (gr : β → γ)
    (hpt : ∀ a b, R a b → gr b = gl a) : l'.map gr = l.map gl := by
  induction h with
  | nil => rfl
  | cons hr _ ih => simp [ih, hpt _ _ hr]

theorem forall₂_comp {α β γ : Type} {P : α → β → Prop} {Q : β → γ → Prop}
    {l : List α} {m : List β} {n : List γ}
    (h1 : List.Forall₂ P l m) (h2 : List.Forall₂ Q m n) :
    List.Forall₂ (fun a c => ∃ b, P a b ∧ Q b c) l n := by
  induction h1 generalizing n with
  | nil => cases h2; exact List.Forall₂.nil
  | cons hp _ ih =>
    cases h2 with
    | cons hq ht => exact List.Forall₂.cons ⟨_, hp, hq⟩ (ih ht)

theorem find?_range_eq_some_of_unique {p : Nat → Bool} {n i : Nat}
    (hi : i < n) (hp : p i = true)
    (huniq : ∀ j, j < n → p j = true → j = i) :
    (List.range n).find? p = some i := by
  induction n with
  | zero => cases hi
  | succ m ih =>
    rw [List.range_succ, List.find?_append]
    by_cases him : i < m
    · rw [ih him (fun j hj hpj => huniq j (Nat.lt_succ_of_lt hj) hpj)]
      rfl
    · have hie : i = m := Nat.le_antisymm (Nat.lt_succ_iff.mp hi) (Nat.le_of_not_lt him)
      subst hie
      have hnone : (List.range i).find? p = none := by
        apply List.find?_eq_none.mpr
        intro j hj hpj
        have hji : j = i := huniq j (Nat.lt_succ_of_lt (List.mem_range.mp hj)) hpj
        have hjm : j < i := List.mem_range.mp hj
        rw [hji] at hjm
        exact absurd hjm (Nat.lt_irrefl i)
      rw [hnone]
      simp [List.find?, hp]

/-!
## Row-level preservation facts
-/

theorem distOf_binRow (r : Row) : distOf (binRow r) = distOf r := by
  unfold distOf binRow
  rw [get_set_ne _ _ _ _ (by decide)]

theorem distOf_preRow {r a : Row} (h : preRow r = some a) : distOf a = distOf r := by
  unfold preRow at h
  rw [Option.map_eq_some'] at h
  obtain ⟨v, _, ha⟩ := h
  rw [← ha]
  unfold distOf
  rw [get_set_ne _ _ _ _ (by decide)]

/-!
## The main correspondence

A successful run pairs each output row with the surviving cleaned input row
it was computed from, uniformly described by `fullRow`.
-/

theorem delCol_eq {f f' : Frame} {c : String} (h : delCol f c = some f') :
    f'.cols = f.cols.filter (fun c' => c' ≠ c) ∧ f'.index = f.index ∧
      f'.rows = f.rows.map (fun r => eraseKey r c) := by
  unfold delCol at h
  split at h
  · cases h; exact ⟨rfl, rfl, rfl⟩
  · cases h

theorem toNumericYear_eq {f f' : Frame} (h : toNumericYear f = some f') :
    ∃ rs, mapRowsM preRow f.rows = some rs ∧
      f' = { f with rows := rs } := by
  unfold toNumericYear at h
  rw [Option.map_eq_some'] at h
  obtain ⟨rs, hrs, hf⟩ := h
  exact ⟨rs, hrs, hf.symm⟩

theorem periodSteps_eq {f f' : Frame} (h : periodSteps f = some f') :
    ∃ rs, mapRowsM periodRowFn f.rows = some rs ∧
      f' = { f with rows := rs } := by
  unfold periodSteps at h
  rw [Option.map_eq_some'] at h
  obtain ⟨rs, hrs, hf⟩ := h
  exact ⟨rs, hrs, hf.symm⟩

theorem pipeline_main {f out : Frame} (hidx : f.index = [])
    (h : pipeline f = some out) :
    ∃ l : List Row,
      l.Perm ((f.rows.map stage0Row).filter yearOk) ∧
      List.Forall₂ (fun r r' => fullRow (l.map distOf) r = some r') l out.rows := by
  unfold pipeline at h
  rw [Option.bind_eq_some] at h
  obtain ⟨f2, h2, h⟩ := h
  rw [Option.bind_eq_some] at h
  obtain ⟨f3, h3, h⟩ := h
  rw [Option.bind_eq_some] at h
  obtain ⟨f7, h7, h⟩ := h
  rw [Option.bind_eq_some] at h
  obtain ⟨f10, h10, h⟩ := h
  rw [Option.bind_eq_some] at h
  obtain ⟨f11, h11, h⟩ := h
  rw [Option.map_eq_some'] at h
  obtain ⟨f12, h12, hout⟩ := h
  obtain ⟨hc2, hi2, hr2⟩ := delCol_eq h2
  obtain ⟨hc3, hi3, hr3⟩ := delCol_eq h3
  obtain ⟨rs7, hrs7, hf7⟩ := toNumericYear_eq h7
  subst hf7
  obtain ⟨hc10, hi10, hr10⟩ := delCol_eq h10
  obtain ⟨rs11, hrs11, hf11⟩ := periodSteps_eq h11
  subst hf11
  obtain ⟨hc12, hi12, hr12⟩ := delCol_eq h12
  subst hout
  -- the rows entering the year filter are the stage0 rows, sorted
  have hX : (filterYears (setIndexSort (reindexCols f3 column_names))).rows
      = (sortBy indexLe (f.rows.map stage0Row)).filter yearOk := by
    have hrows3 : f3.rows = f.rows.map
        (fun r => eraseKey (eraseKey (renameRow r) "Image") "Ref(s)") := by
      rw [hr3, hr2]
      simp [renameFrame, List.map_map, Function.comp]
    have hidx3 : f3.index = [] := by rw [hi3, hi2]; exact hidx
    simp only [filterYears, setIndexSort, reindexCols, hidx3, hrows3,
      List.nil_append, List.map_map]
    rfl
  -- Forall₂ from the year conversion
  rw [hX] at hrs7
  have hF6 := mapRowsM_forall₂ hrs7
  -- the year-descending sort permutes the converted rows
  have hperm8 : rs7.Perm (sortBy yearDescLe rs7) := (sortBy_perm yearDescLe rs7).symm
  obtain ⟨l, hpl, hFl⟩ := forall₂_of_perm_right hperm8 hF6
  -- the rows entering the period steps
  have hrows10 : f10.rows = (sortBy yearDescLe rs7).map
      (fun r => eraseKey (rankRow ((sortBy yearDescLe rs7).map distOf) (binRow r))
        "Mean distance(km)") := by
    rw [hr10]
    simp only [rankFrame, addYearBin, sortYearDesc]
    simp [List.map_map, Function.comp, distOf_binRow]
    intro a _
    have hm : List.map (distOf ∘ binRow) (sortBy yearDescLe rs7)
        = List.map distOf (sortBy yearDescLe rs7) := by
      simp [Function.comp, distOf_binRow]
    rw [hm]
  rw [hrows10] at hrs11
  have hF11 := mapRowsM_forall₂ hrs11
  rw [List.forall₂_map_left_iff] at hF11
  -- the distance values are those of l
  have hvals : (sortBy yearDescLe rs7).map distOf = l.map distOf :=
    forall₂_map_eq hFl distOf distOf (fun a b hab => distOf_preRow hab)
  -- the index levels of the final frame
  have hidx12 : f12.index = keyCols := by
    rw [hi12]
    simp only [addYrsCol]
    rw [hi10]
    simp [rankFrame, addYearBin, sortYearDesc, filterYears, setIndexSort]
  -- the output rows
  have hrows_out : (reindexCols f12 column_names2).rows = rs11.map
      (fun b => projRow outKeep (eraseKey (yrsRow b) "Orbital period(days)")) := by
    simp only [reindexCols, hidx12, hr12]
    simp only [addYrsCol]
    simp [List.map_map, Function.comp, outKeep]
  -- compose everything
  refine ⟨l, ?_, ?_⟩
  · exact hpl.symm.trans ((sortBy_perm indexLe (f.rows.map stage0Row)).filter yearOk)
  · have hcomp := forall₂_comp hFl hF11
    rw [hrows_out, List.forall₂_map_right_iff]
    refine hcomp.imp ?_
    intro r b hrb
    obtain ⟨a, hra, hper⟩ := hrb
    unfold fullRow
    rw [hra]
    rw [← hvals]
    simp only [Option.some_bind]
    rw [hper]
    rfl

/-!
## What `fullRow` does to the individual cells
-/

theorem fullRow_cells {vals : List (Option Frac)} {r r' : Row}
    (h : fullRow vals r = some r') :
    ∃ v pv,
      toNumericCell (r.get "Discovery year") = some v ∧
      daysCellParse (r.get "Orbital period(days)") = some pv ∧
      r'.get "Discovery year" = v ∧
      r'.get "Year bin" = binCell v ∧
      r'.get "Mean distance rank" = rankCell vals (distOf r) ∧
      r'.get "Orbital period(yrs)" = divCell pv := by
  unfold fullRow at h
  cases hpre : preRow r with
  | none => rw [hpre] at h; cases h
  | some a =>
    rw [hpre] at h
    simp only [Option.some_bind] at h
    have hda := distOf_preRow hpre
    unfold preRow at hpre
    rw [Option.map_eq_some'] at hpre
    obtain ⟨v, hv, ha⟩ := hpre
    cases hper : periodRowFn (eraseKey (rankRow vals (binRow a)) "Mean distance(km)") with
    | none => rw [hper] at h; cases h
    | some b =>
      rw [hper] at h
      simp only [Option.map_some', Option.some.injEq] at h
      have hayear : a.get "Discovery year" = v := by
        rw [← ha]; exact get_set_self r _ v
      unfold periodRowFn at hper
      rw [Option.map_eq_some'] at hper
      obtain ⟨pv, hpv, hb⟩ := hper
      have hRdays : (eraseKey (rankRow vals (binRow a)) "Mean distance(km)").get
          "Orbital period(days)" = r.get "Orbital period(days)" := by
        rw [get_erase_ne _ _ _ (by decide)]
        unfold rankRow
        rw [get_set_ne _ _ _ _ (by decide)]
        unfold binRow
        rw [get_set_ne _ _ _ _ (by decide)]
        rw [← ha]
        exact get_set_ne r _ _ v (by decide)
      rw [hRdays] at hpv
      refine ⟨v, pv, hv, hpv, ?_, ?_, ?_, ?_⟩
      · rw [← h, get_proj_mem _ _ _ (by decide), get_erase_ne _ _ _ (by decide)]
        unfold yrsRow
        rw [get_set_ne _ _ _ _ (by decide)]
        rw [← hb, get_set_ne _ _ _ _ (by decide), get_erase_ne _ _ _ (by decide)]
        unfold rankRow
        rw [get_set_ne _ _ _ _ (by decide)]
        unfold binRow
        rw [get_set_ne _ _ _ _ (by decide)]
        exact hayear
      · rw [← h, get_proj_mem _ _ _ (by decide), get_erase_ne _ _ _ (by decide)]
        unfold yrsRow
        rw [get_set_ne _ _ _ _ (by decide)]
        rw [← hb, get_set_ne _ _ _ _ (by decide), get_erase_ne _ _ _ (by decide)]
        unfold rankRow
        rw [get_set_ne _ _ _ _ (by decide)]
        unfold binRow
        rw [get_set_self, hayear]
      · rw [← h, get_proj_mem _ _ _ (by decide), get_erase_ne _ _ _ (by decide)]
        unfold yrsRow
        rw [get_set_ne _ _ _ _ (by decide)]
        rw [← hb, get_set_ne _ _ _ _ (by decide), get_erase_ne _ _ _ (by decide)]
        unfold rankRow
        rw [get_set_self, distOf_binRow, hda]
      · rw [← h, get_proj_mem _ _ _ (by decide), get_erase_ne _ _ _ (by decide)]
        unfold yrsRow
        rw [get_set_self, ← hb, get_set_self]

theorem fullRow_get_preserved {vals : List (Option Frac)} {r r' : Row}
    (h : fullRow vals r = some r') (c : String)
    (hc : c ∈ outKeep) (h1 : c ≠ "Discovery year") (h2 : c ≠ "Year bin")
    (h3 : c ≠ "Mean distance rank") (h4 : c ≠ "Mean distance(km)")
    (h5 : c ≠ "Orbital period(days)") (h6 : c ≠ "Orbital period(yrs)") :
    r'.get c = r.get c := by
  unfold fullRow at h
  cases hpre : preRow r with
  | none => rw [hpre] at h; cases h
  | some a =>
    rw [hpre] at h
    simp only [Option.some_bind] at h
    unfold preRow at hpre
    rw [Option.map_eq_some'] at hpre
    obtain ⟨v, hv, ha⟩ := hpre
    cases hper : periodRowFn (eraseKey (rankRow vals (binRow a)) "Mean distance(km)") with
    | none => rw [hper] at h; cases h
    | some b =>
      rw [hper] at h
      simp only [Option.map_some', Option.some.injEq] at h
      unfold periodRowFn at hper
      rw [Option.map_eq_some'] at hper
      obtain ⟨pv, hpv, hb⟩ := hper
      rw [← h, get_proj_mem _ _ _ hc, get_erase_ne _ _ _ h5]
      unfold yrsRow
      rw [get_set_ne _ _ _ _ h6]
      rw [← hb, get_set_ne _ _ _ _ h5, get_erase_ne _ _ _ h4]
      unfold rankRow
      rw [get_set_ne _ _ _ _ h3]
      unfold binRow
      rw [get_set_ne _ _ _ _ h2]
      rw [← ha]
      exact get_set_ne r _ _ v h1

/-!
## Concrete test data

Small frames with the source table's column layout, used to witness the
general theorems on concrete runs of the pipeline.  `rowThebe` is the
end-to-end scenario row of the specification.
-/

/-- The columns of the scraped source table (the wiki header of the sidereal
period column carries the `(r = retrograde)` legend). -/
def inputCols : List String :=
  ["Image", "Numeral", "Name", "Parent", "Mean radius (km)", "Discovery year",
   "Discovered by", "Notes", "Semi-major axis (km)",
   "Sidereal period (d) (r = retrograde)", "Ref(s)"]

/-- The columns the pipeline contract requires of the source table. -/
def requiredCols : List String :=
  ["Parent", "Name", "Numeral", "Discovery year", "Discovered by",
   "Mean radius (km)", "Notes", "Semi-major axis (km)",
   "Sidereal period (d) (r = retrograde)", "Image", "Ref(s)"]

/-- The end-to-end scenario row: Thebe, Jupiter XVI. -/
def rowThebe : Row :=
  [("Image", Val.vnan), ("Numeral", Val.vstr "XVI"), ("Name", Val.vstr "Thebe"),
   ("Parent", Val.vstr "Jupiter"), ("Mean radius (km)", Val.vstr "49.3"),
   ("Discovery year", Val.vstr "1979"),
   ("Discovered by", Val.vstr "S. Synnott"),
   ("Notes", Val.vstr "ring moon"), ("Semi-major axis (km)", Val.vnum (Frac.ofInt 221900)),
   ("Sidereal period (d) (r = retrograde)", Val.vstr "0.6745 d"),
   ("Ref(s)", Val.vnan)]

/-- A row with the literal year string dropped by the filter. -/
def rowMoon : Row :=
  [("Image", Val.vnan), ("Numeral", Val.vstr "I"), ("Name", Val.vstr "Moon"),
   ("Parent", Val.vstr "Earth"), ("Mean radius (km)", Val.vstr "1737.4"),
   ("Discovery year", Val.vstr "Prehistoric"), ("Discovered by", Val.vnan),
   ("Notes", Val.vstr "round"), ("Semi-major axis (km)", Val.vnum (Frac.ofInt 384399)),
   ("Sidereal period (d) (r = retrograde)", Val.vstr "27.321661"),
   ("Ref(s)", Val.vnan)]

/-- A row whose year (1585) falls outside every bin and whose period text
("5 d") contains no token the extraction pattern matches. -/
def rowOldie : Row :=
  [("Image", Val.vnan), ("Numeral", Val.vstr "II"), ("Name", Val.vstr "Oldie"),
   ("Parent", Val.vstr "Saturn"), ("Mean radius (km)", Val.vstr "10"),
   ("Discovery year", Val.vstr "1585"), ("Discovered by", Val.vstr "Nobody"),
   ("Notes", Val.vnan), ("Semi-major axis (km)", Val.vnum (Frac.ofInt 100000)),
   ("Sidereal period (d) (r = retrograde)", Val.vstr "5 d"),
   ("Ref(s)", Val.vnan)]

/-- A three-row source table. -/
def sampleFrame : Frame := ⟨inputCols, [], [rowThebe, rowMoon, rowOldie]⟩

/-- The source table of the end-to-end scenario alone. -/
def thebeFrame : Frame := ⟨inputCols, [], [rowThebe]⟩

/-- A source table with a duplicated `(Numeral, Name)` pair. -/
def dupFrame : Frame := ⟨inputCols, [], [rowThebe, rowThebe]⟩

/-- A source table whose only row was discovered in 1590, the lower end of
the binning range. -/
def frame1590 : Frame :=
  ⟨inputCols, [],
   [[("Image", Val.vnan), ("Numeral", Val.vstr "III"),
     ("Name", Val.vstr "Edge"), ("Parent", Val.vstr "Mars"),
     ("Mean radius (km)", Val.vstr "1"), ("Discovery year", Val.vstr "1590"),
     ("Discovered by", Val.vnan), ("Notes", Val.vnan),
     ("Semi-major axis (km)", Val.vnum (Frac.ofInt 5000)),
     ("Sidereal period (d) (r = retrograde)", Val.vstr "123.4 d"),
     ("Ref(s)", Val.vnan)]]⟩

/-- The output table the pipeline produces from `sampleFrame`
(verified below by evaluation). -/
def sampleOut : Frame :=
  { cols := column_names2, index := keyCols,
    rows :=
      [[("Numeric moon name", Val.vstr "XVI"), ("Moon name", Val.vstr "Thebe"),
        ("Discovery year", Val.vnum ⟨1979, 0⟩), ("Year bin", Val.vbin 9),
        ("Discovered by", Val.vstr "S. Synnott"),
        ("Mean radius (km)", Val.vstr "49.3"),
        ("Notes", Val.vstr "ring moon"), ("Parent Planet", Val.vstr "Jupiter"),
        ("Mean distance rank", Val.vnum ⟨2, 0⟩),
        ("Orbital period(yrs)", Val.vnum ⟨6745, 364⟩)],
       [("Numeric moon name", Val.vstr "II"), ("Moon name", Val.vstr "Oldie"),
        ("Discovery year", Val.vnum ⟨1585, 0⟩), ("Year bin", Val.vnan),
        ("Discovered by", Val.vstr "Nobody"),
        ("Mean radius (km)", Val.vstr "10"),
        ("Notes", Val.vnan), ("Parent Planet", Val.vstr "Saturn"),
        ("Mean distance rank", Val.vnum ⟨1, 0⟩),
        ("Orbital period(yrs)", Val.vnan)]] }

theorem pipeline_sampleFrame : pipeline sampleFrame = some sampleOut := by decide

/-- The `(Numeric moon name, Moon name)` key pair of a row. -/
def outKeyPair (r : Row) : Val × Val :=
  (r.get "Numeric moon name", r.get "Moon name")

/-- `df['Year bin'].value_counts()` for category `i`: `pd.cut` produces a
categorical column, so `value_counts` reports one count per interval and
skips the NaN cells. -/
def countBin (f : Frame) (i : ℕ) : ℕ :=
  f.rows.countP (fun r => decide (r.get "Year bin" = Val.vbin i))

/-- The schema of any successful run: the final projection forces the output
columns, and the index levels set in cleaning step 4 persist. -/
theorem pipeline_schema {f out : Frame} (h : pipeline f = some out) :
    out.cols = column_names2 ∧ out.index = keyCols := by
  unfold pipeline at h
  rw [Option.bind_eq_some] at h
  obtain ⟨f2, h2, h⟩ := h
  rw [Option.bind_eq_some] at h
  obtain ⟨f3, h3, h⟩ := h
  rw [Option.bind_eq_some] at h
  obtain ⟨f7, h7, h⟩ := h
  rw [Option.bind_eq_some] at h
  obtain ⟨f10, h10, h⟩ := h
  rw [Option.bind_eq_some] at h
  obtain ⟨f11, h11, h⟩ := h
  rw [Option.map_eq_some'] at h
  obtain ⟨f12, h12, hout⟩ := h
  obtain ⟨rs7, hrs7, hf7⟩ := toNumericYear_eq h7
  subst hf7
  obtain ⟨hc10, hi10, hr10⟩ := delCol_eq h10
  obtain ⟨rs11, hrs11, hf11⟩ := periodSteps_eq h11
  subst hf11
  obtain ⟨hc12, hi12, hr12⟩ := delCol_eq h12
  subst hout
  refine ⟨rfl, ?_⟩
  show f12.index = keyCols
  rw [hi12]
  simp only [addYrsCol]
  rw [hi10]
  simp [rankFrame, addYearBin, sortYearDesc, filterYears, setIndexSort]

theorem countP_congr_local {α : Type} (p q : α → Bool) (l : List α)
    (h : ∀ a ∈ l, p a = q a) : l.countP p = l.countP q := by
  induction l with
  | nil => rfl
  | cons a l ih =>
    rw [List.countP_cons, List.countP_cons, h a (List.mem_cons_self a l),
      ih (fun x hx => h x (List.mem_cons_of_mem _ hx))]

/-!
## The claims
-/

/-- C1 (the code contradicts this claim): on the scenario row with sidereal
period text `"0.6745 d"`, the extraction pattern `(\d+\,?\d+\.?\d+)` cannot
match across the decimal point after a single leading digit, so the leftmost
match is the token `"6745"`, not `"0.6745"`; the Thebe row's output
`Orbital period(yrs)` is therefore `6745/365` (about 18.48 years) and not
`0.6745/365` (about 0.001848). -/
theorem c1_period_extraction_bug :
    (extractFirst "0.6745 d".toList).map String.mk = some "6745" ∧
    (pipeline thebeFrame).map
        (fun o => o.rows.map (fun r => r.get "Orbital period(yrs)"))
      = some [Val.vnum ⟨6745, 364⟩] ∧
    Frac.toRat ⟨6745, 364⟩ = 6745 / 365 ∧
    Frac.toRat ⟨6745, 364⟩ ≠ 0.6745 / 365 := by
  refine ⟨by decide, by decide, ?_, ?_⟩
  · unfold Frac.toRat
    norm_num
  · unfold Frac.toRat
    norm_num

/-- C2, counterexample at the boundary: the discovery year 1590 lies in the
claimed range `[1590, 2020]`, yet `pd.cut`'s ten left-open intervals assign
it no bin (none of them contains 1590), as a pipeline run on a table whose
only row was discovered in 1590 shows. -/
theorem c2_binning_counterexample :
    cutBin (Frac.ofInt 1590) = none ∧
    (∀ i : ℕ, i < 10 →
      ¬ ((1590 : ℤ) + 43 * i < 1590 ∧ (1590 : ℤ) ≤ 1590 + 43 * (i + 1))) ∧
    (pipeline frame1590).map (fun o => o.rows.map (fun r => r.get "Year bin"))
      = some [Val.vnan] := by
  refine ⟨by decide, ?_, by decide⟩
  intro i _ hcon
  omega

theorem binPred_iff (i : ℕ) (z : ℤ) :
    ((Frac.ofInt (1590 + 43 * (i : ℤ))).blt (Frac.ofInt z) &&
      (Frac.ofInt z).ble (Frac.ofInt (1590 + 43 * ((i : ℤ) + 1)))) = true ↔
    (1590 + 43 * (i : ℤ) < z ∧ z ≤ 1590 + 43 * ((i : ℤ) + 1)) := by
  simp [Frac.blt, Frac.ble, Frac.ofInt]

/-- C2 (amended): for an integer discovery year in `[1591, 2020]` the
assigned bin is the unique left-open width-43 interval
`(1590 + 43*i, 1590 + 43*(i+1)]` containing it, while 1590 and every year
outside `[1590, 2020]` receive no bin. -/
theorem c2_binning_amended (y : ℤ) :
    (1591 ≤ y → y ≤ 2020 →
      ∃ i : ℕ, i < 10 ∧ cutBin (Frac.ofInt y) = some i ∧
        (1590 + 43 * (i : ℤ) < y ∧ y ≤ 1590 + 43 * ((i : ℤ) + 1)) ∧
        ∀ j : ℕ, j < 10 →
          (1590 + 43 * (j : ℤ) < y ∧ y ≤ 1590 + 43 * ((j : ℤ) + 1)) → j = i) ∧
    ((y ≤ 1590 ∨ 2020 < y) → cutBin (Frac.ofInt y) = none) := by
  constructor
  · intro h1 h2
    refine ⟨((y - 1591) / 43).toNat, by omega, ?_, ⟨by omega, by omega⟩, ?_⟩
    · unfold cutBin
      apply find?_range_eq_some_of_unique (by omega)
      · rw [binPred_iff]
        constructor <;> omega
      · intro j hj hpj
        rw [binPred_iff] at hpj
        omega
    · intro j hj hpj
      omega
  · intro hy
    unfold cutBin
    apply List.find?_eq_none.mpr
    intro i hi
    intro hpi
    rw [binPred_iff] at hpi
    have : i < 10 := List.mem_range.mp hi
    omega

/-- C2 witness: the year 1979 of the end-to-end scenario receives the tenth
bin, `(1977, 2020]`. -/
theorem c2_binning_witness :
    (∃ i : ℕ, i < 10 ∧ cutBin (Frac.ofInt 1979) = some i ∧
        (1590 + 43 * (i : ℤ) < 1979 ∧ (1979 : ℤ) ≤ 1590 + 43 * ((i : ℤ) + 1)) ∧
        ∀ j : ℕ, j < 10 →
          (1590 + 43 * (j : ℤ) < 1979 ∧ (1979 : ℤ) ≤ 1590 + 43 * ((j : ℤ) + 1)) →
          j = i) ∧
    cutBin (Frac.ofInt 1979) = some 9 :=
  ⟨(c2_binning_amended 1979).1 (by decide) (by decide), by decide⟩

/-- C9: the pipeline is a pure function of the input table: two runs on
equal inputs give equal results. -/
theorem c9_pipeline_deterministic (f g : Frame) (h : f = g) :
    pipeline f = pipeline g := by
  rw [h]

/-- C9 witness: a concrete double run. -/
theorem c9_pipeline_deterministic_witness :
    pipeline sampleFrame = pipeline sampleFrame :=
  c9_pipeline_deterministic sampleFrame sampleFrame rfl

/-- C3: a successful run on a source table with the required columns and a
positional index produces a table with exactly the contracted output columns,
in order, keyed by the `(Numeric moon name, Moon name)` index. -/
theorem c3_output_schema (f out : Frame) (hidx : f.index = [])
    (hreq : ∀ c ∈ requiredCols, c ∈ f.cols) (h : pipeline f = some out) :
    out.cols = column_names2 ∧ out.index = keyCols :=
  pipeline_schema h

/-- C3 witness: the schema of a concrete run. -/
theorem c3_output_schema_witness :
    ∃ out, pipeline sampleFrame = some out ∧
      out.cols = column_names2 ∧ out.index = keyCols :=
  ⟨sampleOut, pipeline_sampleFrame,
    c3_output_schema sampleFrame sampleOut rfl (by decide) pipeline_sampleFrame⟩

/-- C8, counterexample: `set_index` enforces nothing; a source table with two
identical Thebe rows flows through the pipeline and yields two output rows
with the same `(Numeric moon name, Moon name)` pair. -/
theorem c8_key_uniqueness_counterexample :
    (pipeline dupFrame).map (fun o => o.rows.map outKeyPair)
      = some [(Val.vstr "XVI", Val.vstr "Thebe"),
              (Val.vstr "XVI", Val.vstr "Thebe")] ∧
    ¬ ([(Val.vstr "XVI", Val.vstr "Thebe"),
        (Val.vstr "XVI", Val.vstr "Thebe")] : List (Val × Val)).Pairwise (· ≠ ·) := by
  constructor
  · decide
  · intro hp
    exact (List.pairwise_cons.mp hp).1 _ (by simp) rfl

/-- C8 (amended): the pipeline never merges or duplicates rows, so whenever
the renamed input rows have pairwise-distinct `(Numeric moon name,
Moon name)` pairs, so do the output rows; uniqueness itself is an assumption
on the data, not enforced by the code. -/
theorem c8_key_uniqueness_amended (f out : Frame) (hidx : f.index = [])
    (h : pipeline f = some out)
    (huniq : ((f.rows.map stage0Row).map outKeyPair).Pairwise (· ≠ ·)) :
    (out.rows.map outKeyPair).Pairwise (· ≠ ·) := by
  obtain ⟨l, hperm, hF⟩ := pipeline_main hidx h
  have hkey : ∀ a b, fullRow (l.map distOf) a = some b → outKeyPair b = outKeyPair a := by
    intro a b hab
    unfold outKeyPair
    rw [fullRow_get_preserved hab "Numeric moon name" (by decide) (by decide)
      (by decide) (by decide) (by decide) (by decide) (by decide)]
    rw [fullRow_get_preserved hab "Moon name" (by decide) (by decide)
      (by decide) (by decide) (by decide) (by decide) (by decide)]
  have hmapeq : out.rows.map outKeyPair = l.map outKeyPair :=
    forall₂_map_eq hF outKeyPair outKeyPair hkey
  rw [hmapeq]
  have hsub : ((f.rows.map stage0Row).filter yearOk).Sublist (f.rows.map stage0Row) :=
    List.filter_sublist _
  have hpairw : (((f.rows.map stage0Row).filter yearOk).map outKeyPair).Pairwise (· ≠ ·) :=
    huniq.sublist (hsub.map outKeyPair)
  have hpm : (l.map outKeyPair).Perm
      (((f.rows.map stage0Row).filter yearOk).map outKeyPair) :=
    hperm.map outKeyPair
  exact (hpm.pairwise_iff (fun hne => Ne.symm hne)).mpr hpairw

/-- C8 witness: the three distinct sample rows keep distinct keys. -/
theorem c8_key_uniqueness_amended_witness :
    (sampleOut.rows.map outKeyPair).Pairwise (· ≠ ·) :=
  c8_key_uniqueness_amended sampleFrame sampleOut rfl pipeline_sampleFrame
    (by decide)

/-- C5: a surviving row whose orbital-period text contains no token matched
by the pattern is not dropped: it reaches the output with a NaN
`Orbital period(yrs)` and its key and descriptive fields unchanged. -/
theorem c5_unmatched_period_kept (f out : Frame) (r : Row) (s : String)
    (hidx : f.index = []) (h : pipeline f = some out) (hr : r ∈ f.rows)
    (hy1 : (stage0Row r).get "Discovery year" ≠ Val.vstr "Prehistoric")
    (hy2 : (stage0Row r).get "Discovery year" ≠ Val.vstr "1975/2000")
    (hs : (stage0Row r).get "Orbital period(days)" = Val.vstr s)
    (hex : extractFirst s.toList = none) :
    ∃ r' ∈ out.rows,
      r'.get "Orbital period(yrs)" = Val.vnan ∧
      r'.get "Numeric moon name" = (stage0Row r).get "Numeric moon name" ∧
      r'.get "Moon name" = (stage0Row r).get "Moon name" ∧
      r'.get "Discovered by" = (stage0Row r).get "Discovered by" ∧
      r'.get "Mean radius (km)" = (stage0Row r).get "Mean radius (km)" ∧
      r'.get "Notes" = (stage0Row r).get "Notes" ∧
      r'.get "Parent Planet" = (stage0Row r).get "Parent Planet" := by
  obtain ⟨l, hperm, hF⟩ := pipeline_main hidx h
  have hmem : stage0Row r ∈ l := by
    apply (hperm.mem_iff).mpr
    apply List.mem_filter.mpr
    refine ⟨List.mem_map_of_mem stage0Row hr, ?_⟩
    unfold yearOk
    rw [decide_eq_true_eq]
    exact ⟨hy1, hy2⟩
  obtain ⟨r', hr', hfull⟩ := forall₂_mem_left hF hmem
  refine ⟨r', hr', ?_, ?_, ?_, ?_, ?_, ?_, ?_⟩
  · obtain ⟨v, pv, _, hdays, _, _, _, hyrs⟩ := fullRow_cells hfull
    rw [hs] at hdays
    unfold daysCellParse at hdays
    simp only [extractCell, hex] at hdays
    simp only [Option.some_bind, stripCell, astypeCell] at hdays
    rw [Option.some.injEq] at hdays
    rw [hyrs, ← hdays]
    rfl
  · exact fullRow_get_preserved hfull _ (by decide) (by decide) (by decide)
      (by decide) (by decide) (by decide) (by decide)
  · exact fullRow_get_preserved hfull _ (by decide) (by decide) (by decide)
      (by decide) (by decide) (by decide) (by decide)
  · exact fullRow_get_preserved hfull _ (by decide) (by decide) (by decide)
      (by decide) (by decide) (by decide) (by decide)
  · exact fullRow_get_preserved hfull _ (by decide) (by decide) (by decide)
      (by decide) (by decide) (by decide) (by decide)
  · exact fullRow_get_preserved hfull _ (by decide) (by decide) (by decide)
      (by decide) (by decide) (by decide) (by decide)
  · exact fullRow_get_preserved hfull _ (by decide) (by decide) (by decide)
      (by decide) (by decide) (by decide) (by decide)

/-- C5 witness: the sample row "Oldie" has period text `"5 d"`, which the
pattern (needing at least three digits) does not match; the row reaches the
output with a NaN period. -/
theorem c5_unmatched_period_kept_witness :
    ∃ r' ∈ sampleOut.rows,
      r'.get "Orbital period(yrs)" = Val.vnan ∧
      r'.get "Numeric moon name" = (stage0Row rowOldie).get "Numeric moon name" ∧
      r'.get "Moon name" = (stage0Row rowOldie).get "Moon name" ∧
      r'.get "Discovered by" = (stage0Row rowOldie).get "Discovered by" ∧
      r'.get "Mean radius (km)" = (stage0Row rowOldie).get "Mean radius (km)" ∧
      r'.get "Notes" = (stage0Row rowOldie).get "Notes" ∧
      r'.get "Parent Planet" = (stage0Row rowOldie).get "Parent Planet" :=
  c5_unmatched_period_kept sampleFrame sampleOut rowOldie "5 d" rfl
    pipeline_sampleFrame (by decide) (by decide) (by decide) (by decide)
    (by decide)

/-- C6: the year filter drops exactly the rows whose raw `Discovery year`
field is one of the two literal strings: the output has one row per
surviving input row, and every output row originates in a row whose year
field differs from both literals. -/
theorem c6_year_filter (f out : Frame) (hidx : f.index = [])
    (h : pipeline f = some out) :
    out.rows.length
      = (f.rows.filter (fun r =>
          decide (¬ ((stage0Row r).get "Discovery year" = Val.vstr "Prehistoric" ∨
            (stage0Row r).get "Discovery year" = Val.vstr "1975/2000")))).length ∧
    ∀ r' ∈ out.rows, ∃ r ∈ f.rows,
      (stage0Row r).get "Discovery year" ≠ Val.vstr "Prehistoric" ∧
      (stage0Row r).get "Discovery year" ≠ Val.vstr "1975/2000" ∧
      ∃ vals, fullRow vals (stage0Row r) = some r' := by
  obtain ⟨l, hperm, hF⟩ := pipeline_main hidx h
  constructor
  · rw [← hF.length_eq, hperm.length_eq, List.filter_map, List.length_map]
    rw [← List.countP_eq_length_filter, ← List.countP_eq_length_filter]
    apply countP_congr_local
    intro r _
    simp only [Function.comp]
    unfold yearOk
    rw [decide_eq_decide]
    constructor
    · rintro ⟨ha, hb⟩ hor
      cases hor with
      | inl e => exact ha e
      | inr e => exact hb e
    · intro hno
      exact ⟨fun e => hno (Or.inl e), fun e => hno (Or.inr e)⟩
  · intro r' hr'
    obtain ⟨r0, hr0, hfull⟩ := forall₂_mem_right hF hr'
    have hr0' := (hperm.mem_iff).mp hr0
    obtain ⟨hr0m, hok⟩ := List.mem_filter.mp hr0'
    obtain ⟨r, hr, hrs⟩ := List.mem_map.mp hr0m
    rw [← hrs] at hok hfull
    unfold yearOk at hok
    rw [decide_eq_true_eq] at hok
    exact ⟨r, hr, hok.1, hok.2, ⟨l.map distOf, hfull⟩⟩

/-- C6 witness: of the three sample rows, exactly the two whose year is not
a literal bad string survive. -/
theorem c6_year_filter_witness :
    sampleOut.rows.length
      = (sampleFrame.rows.filter (fun r =>
          decide (¬ ((stage0Row r).get "Discovery year" = Val.vstr "Prehistoric" ∨
            (stage0Row r).get "Discovery year" = Val.vstr "1975/2000")))).length ∧
    sampleOut.rows.length = 2 :=
  ⟨(c6_year_filter sampleFrame sampleOut rfl pipeline_sampleFrame).1, by decide⟩

/-- C7: every numeric `Orbital period(yrs)` value is the parsed day count of
its own row divided by 365, exactly: the input row `r` that the conclusion
produces is the one the output row `r'` was computed from (`fullRow` at `r`
gives `r'`), `d` is that same row's parsed day count, and multiplying the
years value back by 365 recovers `d`. -/
theorem c7_period_roundtrip (f out : Frame) (hidx : f.index = [])
    (h : pipeline f = some out) :
    ∀ r' ∈ out.rows, ∀ q : Frac, r'.get "Orbital period(yrs)" = Val.vnum q →
      ∃ d : Frac, ∃ r ∈ f.rows, ∃ vals,
        fullRow vals (stage0Row r) = some r' ∧
        daysCellParse ((stage0Row r).get "Orbital period(days)")
          = some (Val.vnum d) ∧
        q.toRat = d.toRat / 365 ∧ q.toRat * 365 = d.toRat := by
  obtain ⟨l, hperm, hF⟩ := pipeline_main hidx h
  intro r' hr' q hq
  obtain ⟨r0, hr0, hfull⟩ := forall₂_mem_right hF hr'
  obtain ⟨v, pv, _, hdays, _, _, _, hyrs⟩ := fullRow_cells hfull
  rw [hq] at hyrs
  obtain ⟨r, hr, hrs⟩ := by
    have hr0' := (hperm.mem_iff).mp hr0
    obtain ⟨hr0m, _⟩ := List.mem_filter.mp hr0'
    exact List.mem_map.mp hr0m
  cases pv with
  | vnum d =>
    have hqd : q = d.div365 := by
      simp only [divCell, Val.vnum.injEq] at hyrs
      exact hyrs
    refine ⟨d, r, hr, l.map distOf, ?_, ?_, ?_, ?_⟩
    · rw [hrs]
      exact hfull
    · rw [hrs]
      exact hdays
    · rw [hqd, Frac.div365_toRat]
    · rw [hqd, Frac.div365_toRat]
      exact div_mul_cancel₀ d.toRat (by norm_num)
  | vstr s => simp only [divCell] at hyrs; cases hyrs
  | vnan => simp only [divCell] at hyrs; cases hyrs
  | vbin i => simp only [divCell] at hyrs; cases hyrs

/-- C7 witness: the Thebe output row's period in years, multiplied back by
365, recovers the day count parsed from the input row that produced it. -/
theorem c7_period_roundtrip_witness :
    ∃ d : Frac, ∃ r ∈ sampleFrame.rows, ∃ vals,
      fullRow vals (stage0Row r) = some sampleOut.rows.headI ∧
      daysCellParse ((stage0Row r).get "Orbital period(days)")
        = some (Val.vnum d) ∧
      Frac.toRat ⟨6745, 364⟩ = d.toRat / 365 ∧
      Frac.toRat ⟨6745, 364⟩ * 365 = d.toRat :=
  c7_period_roundtrip sampleFrame sampleOut rfl pipeline_sampleFrame
    sampleOut.rows.headI (by decide) ⟨6745, 364⟩ (by decide)

/-- A tiny frame exercising the ranking step: two tied distances and a
larger one. -/
def rankDemoRowA : Row := [("Mean distance(km)", Val.vnum (Frac.ofInt 5))]

def rankDemoRowB : Row :=
  [("Notes", Val.vstr "tied"), ("Mean distance(km)", Val.vnum (Frac.ofInt 5))]

def rankDemoRowC : Row := [("Mean distance(km)", Val.vnum (Frac.ofInt 7))]

def rankDemoFrame : Frame :=
  ⟨["Mean distance(km)", "Notes"], [], [rankDemoRowA, rankDemoRowB, rankDemoRowC]⟩

/-- C4: ranks are positive integers; a row's rank is 1 plus the number of
rows of strictly smaller distance (competition ranking, so tied rows share
the lowest eligible rank); rows with equal raw distance get equal ranks; a
row of minimal distance gets rank 1; and the raw distance column is gone
from the output. -/
theorem c4_distance_rank (f out g : Frame) (h : pipeline f = some out) :
    "Mean distance(km)" ∉ out.cols ∧
    (∀ r' ∈ (rankFrame g).rows, ∀ q : Frac,
      r'.get "Mean distance rank" = Val.vnum q →
      ∃ n : ℕ, 1 ≤ n ∧ q.toRat = n) ∧
    (∀ r ∈ g.rows, ∀ v : Frac, distOf r = some v →
      (rankRow (g.rows.map distOf) r).get "Mean distance rank"
        = Val.vnum (Frac.ofInt (1 + g.rows.countP
            (fun r2 => match distOf r2 with
                       | some w => w.blt v
                       | none => false)))) ∧
    (∀ r1 ∈ g.rows, ∀ r2 ∈ g.rows, ∀ v1 v2 : Frac,
      distOf r1 = some v1 → distOf r2 = some v2 → v1.toRat = v2.toRat →
      (rankRow (g.rows.map distOf) r1).get "Mean distance rank"
        = (rankRow (g.rows.map distOf) r2).get "Mean distance rank") ∧
    (∀ r ∈ g.rows, ∀ v : Frac, distOf r = some v →
      (∀ r2 ∈ g.rows, ∀ w : Frac, distOf r2 = some w → v.toRat ≤ w.toRat) →
      (rankRow (g.rows.map distOf) r).get "Mean distance rank"
        = Val.vnum (Frac.ofInt 1)) := by
  refine ⟨?_, ?_, ?_, ?_, ?_⟩
  · rw [(pipeline_schema h).1]
    decide
  · intro r' hmem q hq
    simp only [rankFrame] at hmem
    obtain ⟨r0, _, hr'eq⟩ := List.mem_map.mp hmem
    rw [← hr'eq] at hq
    unfold rankRow at hq
    rw [get_set_self] at hq
    cases hd : distOf r0 with
    | none => rw [hd] at hq; cases hq
    | some v =>
      rw [hd] at hq
      simp only [rankCell, Val.vnum.injEq] at hq
      refine ⟨1 + smallerCount (g.rows.map distOf) v, by omega, ?_⟩
      rw [← hq, Frac.ofInt_toRat]
      push_cast
      ring
  · intro r hrg v hd
    unfold rankRow
    rw [get_set_self, hd]
    simp only [rankCell, Val.vnum.injEq]
    unfold smallerCount
    rw [List.countP_map]
    rfl
  · intro r1 _ r2 _ v1 v2 hd1 hd2 htoRat
    unfold rankRow
    rw [get_set_self, get_set_self, hd1, hd2]
    simp only [rankCell, Val.vnum.injEq]
    have hsc : smallerCount (g.rows.map distOf) v1
        = smallerCount (g.rows.map distOf) v2 := by
      unfold smallerCount
      apply countP_congr_local
      intro w _
      cases w with
      | none => rfl
      | some x =>
        simp only
        have hiff : (x.blt v1 = true) ↔ (x.blt v2 = true) := by
          rw [Frac.blt_iff, Frac.blt_iff, htoRat]
        cases h1 : x.blt v1 <;> cases h2 : x.blt v2 <;> simp_all
    rw [hsc]
  · intro r hrg v hd hmin
    unfold rankRow
    rw [get_set_self, hd]
    simp only [rankCell, Val.vnum.injEq]
    have hsc : smallerCount (g.rows.map distOf) v = 0 := by
      unfold smallerCount
      apply List.countP_eq_zero.mpr
      intro w hw
      cases w with
      | none => simp
      | some x =>
        simp only [Bool.not_eq_true]
        obtain ⟨r2, hr2, hd2⟩ := List.mem_map.mp hw
        have hle := hmin r2 hr2 x hd2
        cases hb : x.blt v
        · rfl
        · exact absurd (Frac.blt_iff.mp hb) (not_lt.mpr hle)
    rw [hsc]
    norm_num

/-- C4 witness: on the demo frame, both a concrete rank-1 assignment for the
minimal distance and the absence of the raw distance column from a concrete
output. -/
theorem c4_distance_rank_witness :
    "Mean distance(km)" ∉ sampleOut.cols ∧
    (rankRow (rankDemoFrame.rows.map distOf) rankDemoRowA).get "Mean distance rank"
      = Val.vnum (Frac.ofInt 1) := by
  have hc4 := c4_distance_rank sampleFrame sampleOut rankDemoFrame pipeline_sampleFrame
  refine ⟨hc4.1, ?_⟩
  apply hc4.2.2.2.2 rankDemoRowA (by decide) (Frac.ofInt 5) (by decide)
  intro r2 hr2 w hw
  have hr2' : r2 = rankDemoRowA ∨ r2 = rankDemoRowB ∨ r2 = rankDemoRowC := by
    simp only [rankDemoFrame, List.mem_cons, List.not_mem_nil, or_false] at hr2
    exact hr2
  rcases hr2' with hca | hcb | hcc
  · rw [hca] at hw
    rw [(by decide : distOf rankDemoRowA = some (Frac.ofInt 5)),
      Option.some.injEq] at hw
    rw [← hw]
  · rw [hcb] at hw
    rw [(by decide : distOf rankDemoRowB = some (Frac.ofInt 5)),
      Option.some.injEq] at hw
    rw [← hw]
  · rw [hcc] at hw
    rw [(by decide : distOf rankDemoRowC = some (Frac.ofInt 7)),
      Option.some.injEq] at hw
    rw [← hw]
    unfold Frac.toRat Frac.ofInt
    norm_num

/-- Every `Year bin` cell the binning step can produce: NaN or one of the
ten intervals. -/
theorem binCell_cases (v : Val) :
    binCell v = Val.vnan ∨ ∃ j, j < 10 ∧ binCell v = Val.vbin j := by
  cases v with
  | vnum q =>
    cases hc : cutBin q with
    | none => left; simp [binCell, hc]
    | some i =>
      right
      refine ⟨i, ?_, by simp [binCell, hc]⟩
      exact List.mem_range.mp (List.mem_of_find?_eq_some hc)
  | vstr s => left; rfl
  | vnan => left; rfl
  | vbin i => left; rfl

/-- Summing the per-interval counts over rows whose bin cell is an interval
or NaN gives the number of rows with a non-NaN bin. -/
theorem sum_bins_eq_defined (rs : List Row)
    (hb : ∀ r ∈ rs, r.get "Year bin" = Val.vnan ∨
          ∃ j, j < 10 ∧ r.get "Year bin" = Val.vbin j) :
    (Finset.range 10).sum
        (fun i => rs.countP (fun r => decide (r.get "Year bin" = Val.vbin i)))
      = rs.countP (fun r => decide (r.get "Year bin" ≠ Val.vnan)) := by
  induction rs with
  | nil => simp
  | cons r rs ih =>
    have hr := hb r (List.mem_cons_self r rs)
    have ihh := ih (fun x hx => hb x (List.mem_cons_of_mem _ hx))
    simp only [List.countP_cons]
    rw [Finset.sum_add_distrib, ihh]
    have hstep : (Finset.range 10).sum
        (fun i => if decide (r.get "Year bin" = Val.vbin i) = true then 1 else 0)
        = (if decide (r.get "Year bin" ≠ Val.vnan) = true then 1 else 0) := by
      cases hr with
      | inl hnan => rw [hnan]; simp
      | inr hex =>
        obtain ⟨j, hj, hbin⟩ := hex
        rw [hbin]
        have h1 : ∀ i, (if decide (Val.vbin j = Val.vbin i) = true then 1 else 0)
            = (if j = i then (1 : ℕ) else 0) := by
          intro i
          by_cases hij : j = i <;> simp [hij]
        have h2 : (Finset.range 10).sum
            (fun i => if decide (Val.vbin j = Val.vbin i) = true then 1 else 0)
            = (Finset.range 10).sum (fun i => if j = i then (1 : ℕ) else 0) :=
          Finset.sum_congr rfl (fun i _ => h1 i)
        rw [h2, Finset.sum_ite_eq (Finset.range 10) j (fun _ => 1)]
        simp [Finset.mem_range.mpr hj]
    rw [hstep]

/-- C10: `value_counts` skips the rows with an undefined bin while the
normalization divides by the total row count, so with at least one undefined
bin the fractions sum to strictly less than 1. -/
theorem c10_bin_fractions (f out : Frame) (hidx : f.index = [])
    (h : pipeline f = some out)
    (hnan : ∃ r ∈ out.rows, r.get "Year bin" = Val.vnan) :
    (Finset.range 10).sum (fun i => countBin out i)
      = out.rows.countP (fun r => decide (r.get "Year bin" ≠ Val.vnan)) ∧
    (Finset.range 10).sum (fun i => (countBin out i : ℚ) / out.rows.length) < 1 := by
  obtain ⟨l, hperm, hF⟩ := pipeline_main hidx h
  have hb : ∀ r ∈ out.rows, r.get "Year bin" = Val.vnan ∨
      ∃ j, j < 10 ∧ r.get "Year bin" = Val.vbin j := by
    intro r' hr'
    obtain ⟨r0, hr0, hfull⟩ := forall₂_mem_right hF hr'
    obtain ⟨v, pv, _, _, _, hbin, _, _⟩ := fullRow_cells hfull
    rw [hbin]
    exact binCell_cases v
  have hsum := sum_bins_eq_defined out.rows hb
  refine ⟨hsum, ?_⟩
  obtain ⟨rnan, hrnan, hrn⟩ := hnan
  have hlenpos : 0 < out.rows.length := List.length_pos_of_mem hrnan
  have hdef_lt : out.rows.countP (fun r => decide (r.get "Year bin" ≠ Val.vnan))
      < out.rows.length := by
    rw [List.countP_eq_length_filter]
    apply List.length_filter_lt_length_iff_exists.mpr
    exact ⟨rnan, hrnan, by simp [hrn]⟩
  rw [← Finset.sum_div, div_lt_one (by exact_mod_cast hlenpos), ← Nat.cast_sum]
  exact_mod_cast hsum ▸ hdef_lt

/-- C10 witness: the sample output has one row ("Oldie", year 1585) with an
undefined bin among its two rows, so the fractions sum to 1/2 < 1. -/
theorem c10_bin_fractions_witness :
    (Finset.range 10).sum
        (fun i => (countBin sampleOut i : ℚ) / sampleOut.rows.length) < 1 :=
  (c10_bin_fractions sampleFrame sampleOut rfl pipeline_sampleFrame
    ⟨sampleOut.rows.getLast (by decide), by decide, by decide⟩).2

end MoonPipeline
